import Mathlib

/-!
A shallow embedding of the `OinioMemorialBridge` Soroban contract
(`contracts/oinio-memorial-bridge/src/lib.rs`) together with theorems about
its behaviour.

Modelling choices:
* `Address` is an abstract identifier; we model it as `String` (only equality
  of addresses matters to the contract).
* Host storage is a record `Storage`: the three instance slots keyed by the
  short symbols `MSG`, `SUPPLY` and `LETTER` become fields `msg`, `supply`
  and `letter` (each an `Option`, `none` meaning the slot is absent), and the
  persistent storage keyed by addresses becomes a function
  `persistent : Address → Option Nat`.
* `u64` values are modelled as `Nat`; the only value ever written is
  1,000,000,000, far below `2 ^ 64`, so no wraparound can occur.
* Each entry point becomes a function returning `Except Unit _`:
  `Except.error ()` models a host trap (a `require_auth` failure or an
  `unwrap` of an absent slot), which aborts the whole transaction.
* The Rust entry point `initialize` is embedded as `init` (same body);
  authorization is modelled by a predicate `auth : Address → Bool` giving,
  for the calling transaction, which addresses the caller can prove control
  of: `admin.require_auth()` succeeds exactly when `auth admin = true`.
-/

abbrev Address : Type := String

/-- The contract-scoped host storage: instance slots `MSG`, `SUPPLY`,
`LETTER`, and the persistent address-keyed slots. -/
structure Storage where
  msg : Option String
  supply : Option Nat
  letter : Option String
  persistent : Address → Option Nat

/-- Storage of a freshly deployed contract: every slot is absent. -/
def emptyStorage : Storage :=
  { msg := none, supply := none, letter := none, persistent := fun _ => none }

/-- The memorial string written by the `initialize` entry point. -/
def memorialMsg : String :=
  "OINIO: For the Beloved Keepers of the Northern Gateway. Not in vain."

/-- The supply constant `1_000_000_000u64` written by `initialize`. -/
def supplyConst : Nat := 1000000000

/-- Embedding of the entry point `initialize(env, admin)`: first
`admin.require_auth()` (trap if the caller cannot authorize `admin`), then
set `MSG`, set `SUPPLY`, and set the persistent slot keyed by `admin`. -/
def init (auth : Address → Bool) (admin : Address) (s : Storage) :
    Except Unit Storage :=
  if auth admin then
    Except.ok
      { msg := some memorialMsg
        supply := some supplyConst
        letter := s.letter
        persistent := fun a => if a = admin then some supplyConst else s.persistent a }
  else
    Except.error ()

/-- Embedding of `anchor_letter(env, letter_url)`: unconditionally set the
`LETTER` slot; no trap is possible. -/
def anchor_letter (letter_url : String) (s : Storage) : Except Unit Storage :=
  Except.ok { s with letter := some letter_url }

/-- Embedding of `get_message(env)`: read the `MSG` slot and `unwrap`
(trap when the slot is absent). -/
def get_message (s : Storage) : Except Unit String :=
  match s.msg with
  | some m => Except.ok m
  | none => Except.error ()

/-- Embedding of `get_letter(env)`: read the `LETTER` slot; absence is
returned as `none`, never a trap. -/
def get_letter (s : Storage) : Except Unit (Option String) :=
  Except.ok s.letter

/-- Embedding of `get_supply(env)`: read the `SUPPLY` slot and `unwrap`
(trap when the slot is absent). -/
def get_supply (s : Storage) : Except Unit Nat :=
  match s.supply with
  | some v => Except.ok v
  | none => Except.error ()

/-- One external transaction against the contract: which entry point is
invoked, with its arguments; for `init` also the authorization scope of the
calling transaction. -/
inductive Call where
  | init (auth : Address → Bool) (admin : Address)
  | anchorLetter (letter_url : String)
  | getMessage
  | getLetter
  | getSupply

/-- Effect of one transaction on storage: a trapped call aborts the whole
transaction, so storage is left unchanged; a successful call commits its
writes. The read-only entry points commit no writes either way. -/
def exec : Call → Storage → Storage
  | Call.init auth admin, s =>
    match init auth admin s with
    | Except.ok s' => s'
    | Except.error _ => s
  | Call.anchorLetter u, s =>
    match anchor_letter u s with
    | Except.ok s' => s'
    | Except.error _ => s
  | Call.getMessage, s =>
    match get_message s with
    | Except.ok _ => s
    | Except.error _ => s
  | Call.getLetter, s =>
    match get_letter s with
    | Except.ok _ => s
    | Except.error _ => s
  | Call.getSupply, s =>
    match get_supply s with
    | Except.ok _ => s
    | Except.error _ => s

/-- Run a sequence of transactions, in order, from a starting storage. -/
def run (s : Storage) : List Call → Storage
  | [] => s
  | c :: cs => run (exec c s) cs

theorem exec_getMessage_id (s : Storage) : exec Call.getMessage s = s := by
  cases hm : s.msg <;> simp [exec, get_message, hm]

theorem exec_getLetter_id (s : Storage) : exec Call.getLetter s = s := by
  simp [exec, get_letter]

theorem exec_getSupply_id (s : Storage) : exec Call.getSupply s = s := by
  cases hv : s.supply <;> simp [exec, get_supply, hv]

theorem run_append (s : Storage) (l1 l2 : List Call) :
    run s (l1 ++ l2) = run (run s l1) l2 := by
  induction l1 generalizing s with
  | nil => rfl
  | cons c cs ih => simp [run, ih]

theorem msg_exec_inv (c : Call) (s : Storage)
    (h : s.msg = some memorialMsg) : (exec c s).msg = some memorialMsg := by
  cases c with
  | init auth admin =>
    by_cases ha : auth admin = true
    · simp [exec, init, ha]
    · simp [exec, init, ha, h]
  | anchorLetter u => simpa [exec, anchor_letter] using h
  | getMessage => rw [exec_getMessage_id]; exact h
  | getLetter => rw [exec_getLetter_id]; exact h
  | getSupply => rw [exec_getSupply_id]; exact h

theorem msg_run_inv (cs : List Call) (s : Storage)
    (h : s.msg = some memorialMsg) : (run s cs).msg = some memorialMsg := by
  induction cs generalizing s with
  | nil => exact h
  | cons c cs ih => exact ih _ (msg_exec_inv c s h)

theorem supply_exec_inv (c : Call) (s : Storage)
    (h : s.supply = some supplyConst) :
    (exec c s).supply = some supplyConst := by
  cases c with
  | init auth admin =>
    by_cases ha : auth admin = true
    · simp [exec, init, ha]
    · simp [exec, init, ha, h]
  | anchorLetter u => simpa [exec, anchor_letter] using h
  | getMessage => rw [exec_getMessage_id]; exact h
  | getLetter => rw [exec_getLetter_id]; exact h
  | getSupply => rw [exec_getSupply_id]; exact h

theorem supply_run_inv (cs : List Call) (s : Storage)
    (h : s.supply = some supplyConst) :
    (run s cs).supply = some supplyConst := by
  induction cs generalizing s with
  | nil => exact h
  | cons c cs ih => exact ih _ (supply_exec_inv c s h)

/-- Every value ever sitting in a persistent (address-keyed) slot is the
supply constant, and so is any value in the `SUPPLY` slot. -/
def supplyAgree (s : Storage) : Prop :=
  (∀ a v, s.persistent a = some v → v = supplyConst) ∧
  (∀ v, s.supply = some v → v = supplyConst)

theorem supplyAgree_exec (c : Call) (s : Storage)
    (h : supplyAgree s) : supplyAgree (exec c s) := by
  obtain ⟨hp, hs⟩ := h
  cases c with
  | init auth admin =>
    by_cases ha : auth admin = true
    · constructor
      · intro a v hv
        simp only [exec, init, ha, if_true] at hv
        by_cases hadm : a = admin
        · simp [hadm] at hv; omega
        · exact hp a v (by simpa [hadm] using hv)
      · intro v hv
        simp only [exec, init, ha, if_true] at hv
        simp at hv; omega
    · simpa [exec, init, ha] using ⟨hp, hs⟩
  | anchorLetter u => simpa [exec, anchor_letter, supplyAgree] using ⟨hp, hs⟩
  | getMessage => rw [exec_getMessage_id]; exact ⟨hp, hs⟩
  | getLetter => rw [exec_getLetter_id]; exact ⟨hp, hs⟩
  | getSupply => rw [exec_getSupply_id]; exact ⟨hp, hs⟩

theorem supplyAgree_run (cs : List Call) (s : Storage)
    (h : supplyAgree s) : supplyAgree (run s cs) := by
  induction cs generalizing s with
  | nil => exact h
  | cons c cs ih => exact ih _ (supplyAgree_exec c s h)

theorem letter_exec_inv (c : Call) (s : Storage)
    (hc : ∀ u, c ≠ Call.anchorLetter u) : (exec c s).letter = s.letter := by
  cases c with
  | init auth admin =>
    by_cases ha : auth admin = true
    · simp [exec, init, ha]
    · simp [exec, init, ha]
  | anchorLetter u => exact absurd rfl (hc u)
  | getMessage => rw [exec_getMessage_id]
  | getLetter => rw [exec_getLetter_id]
  | getSupply => rw [exec_getSupply_id]

theorem letter_run_inv (cs : List Call) (s : Storage)
    (hc : ∀ u, Call.anchorLetter u ∉ cs) : (run s cs).letter = s.letter := by
  induction cs generalizing s with
  | nil => rfl
  | cons c cs ih =>
    have hc1 : ∀ u, c ≠ Call.anchorLetter u := by
      intro u he
      exact hc u (by simp [he])
    have hc2 : ∀ u, Call.anchorLetter u ∉ cs := by
      intro u hm
      exact hc u (List.mem_cons_of_mem _ hm)
    rw [run, ih _ hc2, letter_exec_inv c s hc1]

/-- Claim C1: for every admin address, after a call to `initialize(admin)`
succeeds, `get_supply()` returns exactly 1,000,000,000 and `get_message()`
returns the fixed memorial string. -/
theorem init_success_supply_message (auth : Address → Bool) (admin : Address)
    (s : Storage) (h : auth admin = true) :
    ∃ s', init auth admin s = Except.ok s' ∧
      get_supply s' = Except.ok 1000000000 ∧
      get_message s' = Except.ok memorialMsg := by
  refine ⟨{ msg := some memorialMsg, supply := some supplyConst, letter := s.letter,
            persistent := fun a => if a = admin then some supplyConst else s.persistent a },
          by simp [init, h], ?_, ?_⟩
  · simp [get_supply, supplyConst]
  · simp [get_message]

/-- Witness for C1 at a concrete transaction and the fresh storage. -/
theorem init_success_supply_message_witness :
    ∃ s', init (fun _ => true) ("GADMIN") emptyStorage = Except.ok s' ∧
      get_supply s' = Except.ok 1000000000 ∧
      get_message s' = Except.ok memorialMsg :=
  init_success_supply_message (fun _ => true) ("GADMIN") emptyStorage rfl

/-- Claim C2: when the `MSG` and `SUPPLY` slots are absent (no `initialize`
has ever run), `get_supply()` and `get_message()` abort rather than return a
default. -/
theorem reads_abort_when_uninitialized (s : Storage)
    (hm : s.msg = none) (hv : s.supply = none) :
    get_message s = Except.error () ∧ get_supply s = Except.error () := by
  simp [get_message, get_supply, hm, hv]

/-- Witness for C2 at the fresh storage. -/
theorem reads_abort_when_uninitialized_witness :
    get_message emptyStorage = Except.error () ∧
      get_supply emptyStorage = Except.error () :=
  reads_abort_when_uninitialized emptyStorage rfl rfl

/-- Claim C3: from a fresh deployment, `get_letter()` returns `none` without
aborting as long as no `anchor_letter` transaction occurred, and after any
sequence whose last `anchor_letter` carried `u` it returns `some u`
(last write wins), again without aborting. -/
theorem letter_last_write_wins (cs : List Call) :
    ((∀ u, Call.anchorLetter u ∉ cs) →
        get_letter (run emptyStorage cs) = Except.ok none) ∧
    (∀ l1 u l2, cs = l1 ++ Call.anchorLetter u :: l2 →
        (∀ v, Call.anchorLetter v ∉ l2) →
        get_letter (run emptyStorage cs) = Except.ok (some u)) := by
  constructor
  · intro hno
    show Except.ok (run emptyStorage cs).letter = Except.ok none
    rw [letter_run_inv cs emptyStorage hno]
    rfl
  · intro l1 u l2 hcs hno
    subst hcs
    show Except.ok (run emptyStorage (l1 ++ Call.anchorLetter u :: l2)).letter =
      Except.ok (some u)
    rw [run_append]
    simp only [run]
    rw [letter_run_inv l2 _ hno]
    simp [exec, anchor_letter]

/-- Witness for C3: one run with no anchoring, one with a concrete anchored
URL followed by an unrelated read. -/
theorem letter_last_write_wins_witness :
    get_letter (run emptyStorage [Call.getSupply]) = Except.ok none ∧
      get_letter (run emptyStorage
          [Call.anchorLetter ("https://facebook.com/letter"), Call.getMessage]) =
        Except.ok (some ("https://facebook.com/letter")) := by
  constructor
  · exact (letter_last_write_wins [Call.getSupply]).1 (by intro u; simp)
  · exact (letter_last_write_wins
      [Call.anchorLetter ("https://facebook.com/letter"), Call.getMessage]).2
      [] ("https://facebook.com/letter") [Call.getMessage] rfl (by intro v; simp)

/-- Claim C4: an `initialize(admin)` call whose transaction cannot authorize
`admin` aborts and leaves every storage slot unchanged. -/
theorem init_unauthorized_aborts (auth : Address → Bool) (admin : Address)
    (s : Storage) (h : auth admin = false) :
    init auth admin s = Except.error () ∧ exec (Call.init auth admin) s = s := by
  constructor
  · simp [init, h]
  · simp [exec, init, h]

/-- Witness for C4 at a concrete unauthorized transaction. -/
theorem init_unauthorized_aborts_witness :
    init (fun _ => false) ("GADMIN") emptyStorage = Except.error () ∧
      exec (Call.init (fun _ => false) ("GADMIN")) emptyStorage = emptyStorage :=
  init_unauthorized_aborts (fun _ => false) ("GADMIN") emptyStorage rfl

/-- Claim C5: a second `initialize` with a different admin succeeds (no
re-initialization guard) and overwrites the `SUPPLY` and `MSG` slots with the
second call's values. -/
theorem second_init_overwrites (auth1 auth2 : Address → Bool)
    (admin1 admin2 : Address) (h1 : auth1 admin1 = true)
    (h2 : auth2 admin2 = true) (hne : admin1 ≠ admin2) :
    ∃ s2, init auth2 admin2 (exec (Call.init auth1 admin1) emptyStorage) =
        Except.ok s2 ∧
      s2.supply = some supplyConst ∧ s2.msg = some memorialMsg ∧
      s2.persistent admin2 = some supplyConst := by
  refine ⟨{ msg := some memorialMsg, supply := some supplyConst,
            letter := (exec (Call.init auth1 admin1) emptyStorage).letter,
            persistent := fun a => if a = admin2 then some supplyConst
              else (exec (Call.init auth1 admin1) emptyStorage).persistent a },
          by simp [init, h2], rfl, rfl, by simp⟩

/-- Witness for C5 at two concrete distinct admins. -/
theorem second_init_overwrites_witness :
    ∃ s2, init (fun _ => true) ("GBETA")
        (exec (Call.init (fun _ => true) ("GALPHA")) emptyStorage) =
        Except.ok s2 ∧
      s2.supply = some supplyConst ∧ s2.msg = some memorialMsg ∧
      s2.persistent ("GBETA") = some supplyConst :=
  second_init_overwrites (fun _ => true) (fun _ => true) ("GALPHA") ("GBETA")
    rfl rfl (by decide)

/-- Claim C6: in every state reachable from a fresh deployment through the
entry points by a trace containing at least one successful `initialize`, the
`SUPPLY` slot holds 1,000,000,000 and every present admin-keyed persistent
record also holds 1,000,000,000: the two supply records never diverge. -/
theorem supply_records_agree (cs : List Call) (auth : Address → Bool)
    (admin : Address) (hmem : Call.init auth admin ∈ cs)
    (hauth : auth admin = true) :
    (run emptyStorage cs).supply = some supplyConst ∧
      ∀ a v, (run emptyStorage cs).persistent a = some v → v = supplyConst := by
  obtain ⟨l1, l2, rfl⟩ := List.append_of_mem hmem
  constructor
  · rw [run_append]
    simp only [run]
    apply supply_run_inv
    simp [exec, init, hauth]
  · have hag : supplyAgree (run emptyStorage (l1 ++ Call.init auth admin :: l2)) := by
      apply supplyAgree_run
      constructor
      · intro a v hv
        simp [emptyStorage] at hv
      · intro v hv
        simp [emptyStorage] at hv
    exact hag.1

/-- Witness for C6 at a concrete one-transaction trace. -/
theorem supply_records_agree_witness :
    (run emptyStorage [Call.init (fun _ => true) ("GADMIN")]).supply =
        some supplyConst ∧
      ∀ a v, (run emptyStorage
          [Call.init (fun _ => true) ("GADMIN")]).persistent a = some v →
        v = supplyConst :=
  supply_records_agree [Call.init (fun _ => true) ("GADMIN")] (fun _ => true)
    ("GADMIN") (List.mem_singleton.mpr rfl) rfl

/-- Claim C7: for every URL string and every storage state, `anchor_letter`
succeeds without aborting, checks no authorization, imposes no precondition,
validates nothing, and unconditionally overwrites the `LETTER` slot while
leaving every other slot as it was. -/
theorem anchor_letter_unconditional (letter_url : String) (s : Storage) :
    anchor_letter letter_url s =
      Except.ok { msg := s.msg, supply := s.supply, letter := some letter_url,
                  persistent := s.persistent } := rfl

/-- Claim C8: a successful `initialize(admin)` writes exactly the `MSG` slot,
the `SUPPLY` slot and the persistent slot keyed by `admin`, and leaves every
other slot unchanged; in particular a previously anchored `LETTER` value
survives re-initialization. -/
theorem init_exact_writes (auth : Address → Bool) (admin : Address)
    (s : Storage) (h : auth admin = true) :
    ∃ s', init auth admin s = Except.ok s' ∧
      s'.msg = some memorialMsg ∧ s'.supply = some supplyConst ∧
      s'.persistent admin = some supplyConst ∧
      s'.letter = s.letter ∧
      ∀ a, a ≠ admin → s'.persistent a = s.persistent a := by
  refine ⟨{ msg := some memorialMsg, supply := some supplyConst, letter := s.letter,
            persistent := fun a => if a = admin then some supplyConst else s.persistent a },
          by simp [init, h], rfl, rfl, by simp, rfl, ?_⟩
  intro a ha
  simp [ha]

/-- Witness for C8 at a storage that already holds an anchored letter. -/
theorem init_exact_writes_witness :
    ∃ s', init (fun _ => true) ("GADMIN")
        { emptyStorage with letter := some ("https://facebook.com/letter") } =
        Except.ok s' ∧
      s'.msg = some memorialMsg ∧ s'.supply = some supplyConst ∧
      s'.persistent ("GADMIN") = some supplyConst ∧
      s'.letter =
        ({ emptyStorage with
            letter := some ("https://facebook.com/letter") } : Storage).letter ∧
      ∀ a, a ≠ ("GADMIN") →
        s'.persistent a =
          ({ emptyStorage with
              letter := some ("https://facebook.com/letter") } : Storage).persistent a :=
  init_exact_writes (fun _ => true) ("GADMIN")
    { emptyStorage with letter := some ("https://facebook.com/letter") } rfl

/-- Claim C9: the message is set at initialization and never mutated: right
after a successful `initialize` the `MSG` slot holds the memorial string, and
it still does after every further sequence of entry-point transactions. -/
theorem message_immutable_after_init (auth : Address → Bool) (admin : Address)
    (s : Storage) (cs : List Call) (h : auth admin = true) :
    (exec (Call.init auth admin) s).msg = some memorialMsg ∧
      (run (exec (Call.init auth admin) s) cs).msg = some memorialMsg := by
  have h0 : (exec (Call.init auth admin) s).msg = some memorialMsg := by
    simp [exec, init, h]
  exact ⟨h0, msg_run_inv cs _ h0⟩

/-- Witness for C9 at a concrete trace that re-anchors a letter and reads. -/
theorem message_immutable_after_init_witness :
    (exec (Call.init (fun _ => true) ("GADMIN")) emptyStorage).msg =
        some memorialMsg ∧
      (run (exec (Call.init (fun _ => true) ("GADMIN")) emptyStorage)
          [Call.anchorLetter ("https://facebook.com/letter"), Call.getSupply]).msg =
        some memorialMsg :=
  message_immutable_after_init (fun _ => true) ("GADMIN") emptyStorage
    [Call.anchorLetter ("https://facebook.com/letter"), Call.getSupply] rfl

/-- Claim C10: the three read accessors leave every storage slot unchanged:
for every storage state, executing `get_message`, `get_letter` or
`get_supply` as a transaction yields the same state. -/
theorem reads_leave_storage_unchanged (s : Storage) :
    exec Call.getMessage s = s ∧ exec Call.getLetter s = s ∧
      exec Call.getSupply s = s :=
  ⟨exec_getMessage_id s, exec_getLetter_id s, exec_getSupply_id s⟩
